import Mathlib

/-
Verification development for the two-stage loan-analytics ETL pipeline.

The repository has two AWS Lambda entry points:
  * `src/pipeline/lambda_transform_bronze_to_silver/lambda-function.py`
    (the Normalizer, modelled in namespace `BronzeToSilver`), and
  * `src/pipeline/lambda_transform_silver_to_gold/lambda-function.py`
    (the Aggregator, modelled in namespace `SilverToGold`).

We build a shallow embedding: dataframes become lists of records, S3 and RDS
writes become explicit write events in the result, raised Python exceptions
become `Except.error` values, and the `os.environ` module-level configuration
reads become functions over an association-list environment.
-/

-- Equality of `Except` results is decidable componentwise; this lets the
-- handlers be evaluated on concrete inputs by `decide`.
deriving instance DecidableEq for Except

/-- Errors raised by either Lambda. `typeCoercion` models the ValueError
raised by `pandas.astype` on a non-numeric value (the TypeCoercionError of
the spec); `notFound` models the `FileNotFoundError` raised in
`read_parquet_folder_from_s3` (the NotFoundError of the spec);
`missingConfig` models the `KeyError` raised by a bare `os.environ[...]`
lookup on an absent key (the MissingConfiguration error of the spec). -/
inductive PipelineError where
  | typeCoercion (val : String)
  | notFound (msg : String)
  | missingConfig (key : String)
deriving DecidableEq

/-- A raw CSV cell as seen by the Normalizer before coercion: either a
numeric literal (modelled as a rational) or non-numeric text. -/
inductive RawCell where
  | num (q : ℚ)
  | text (s : String)
deriving DecidableEq

/-- `astype(float)` on one cell: succeeds on any numeric value, raises on
text (source: lines 17-19 of the bronze-to-silver Lambda). -/
def astype_float : RawCell → Except PipelineError ℚ
  | .num q => .ok q
  | .text s => .error (.typeCoercion s)

/-- `astype(int)` on one cell: succeeds on any numeric value (truncating
toward zero, as a C-style cast does), raises on text (source: lines 20-21
of the bronze-to-silver Lambda). -/
def astype_int : RawCell → Except PipelineError ℤ
  | .num q => .ok (q.num.tdiv (q.den : ℤ))
  | .text s => .error (.typeCoercion s)

/-- One row of the bronze CSV, with the header of the raw loan records.
The five columns coerced by the Normalizer are `RawCell`; the rest are
carried as text. -/
structure RawRow where
  customer_id : String
  name : String
  region : String
  contact_number : String
  email : String
  customer_score : RawCell
  risk_level : String
  account_number : String
  account_type : String
  loan_type : String
  loan_amount : RawCell
  outstanding_amount : RawCell
  emi_amount : RawCell
  due_date : String
  payment_status : String
  last_payment_date : String
  payment_delay_days : RawCell
deriving DecidableEq

/-- A bronze row after the five `astype` coercions of lines 17-21. -/
structure Row where
  customer_id : String
  name : String
  region : String
  contact_number : String
  email : String
  customer_score : ℤ
  risk_level : String
  account_number : String
  account_type : String
  loan_type : String
  loan_amount : ℚ
  outstanding_amount : ℚ
  emi_amount : ℚ
  due_date : String
  payment_status : String
  last_payment_date : String
  payment_delay_days : ℤ
deriving DecidableEq

/-- One row of the `dim_customer` silver table (projection at line 30). -/
structure DimCustomerRow where
  customer_id : String
  name : String
  region : String
  contact_number : String
  email : String
  customer_score : ℤ
  risk_level : String
deriving DecidableEq

/-- One row of the `dim_account` silver table (projection at line 42). -/
structure DimAccountRow where
  account_number : String
  account_type : String
  loan_type : String
deriving DecidableEq

/-- One row of the `fact_loan_payment` silver table (projection at line 54),
including the two derived columns. Field names are lower-case, matching the
case-normalisation the Aggregator applies on read (silver-to-gold line 36). -/
structure FactRow where
  customer_id : String
  account_number : String
  loan_amount : ℚ
  outstanding_amount : ℚ
  emi_amount : ℚ
  due_date : String
  payment_status : String
  last_payment_date : String
  payment_delay_days : ℤ
  payment_on_time_flag : String
  payment_behavior : String
deriving DecidableEq

/-- Line 25: `"Yes" if x == 0 else "No"`. -/
def payment_on_time_flag (x : ℤ) : String :=
  if x = 0 then "Yes" else "No"

/-- Lines 26-28: `"Good" if x == 0 else ("Average" if x <= 10 else "Delayed")`. -/
def payment_behavior (x : ℤ) : String :=
  if x = 0 then "Good" else if x ≤ 10 then "Average" else "Delayed"

/-- Coerce one bronze row. The source coerces column by column
(Loan_Amount, Outstanding_Amount, EMI_Amount, Payment_Delay_Days,
Customer_Score, lines 17-21); coercing row by row in the same column order
succeeds on exactly the same inputs and raises a `typeCoercion` error on
exactly the same inputs. -/
def coerceRow (r : RawRow) : Except PipelineError Row :=
  match astype_float r.loan_amount with
  | .error e => .error e
  | .ok la =>
    match astype_float r.outstanding_amount with
    | .error e => .error e
    | .ok oa =>
      match astype_float r.emi_amount with
      | .error e => .error e
      | .ok ea =>
        match astype_int r.payment_delay_days with
        | .error e => .error e
        | .ok pdd =>
          match astype_int r.customer_score with
          | .error e => .error e
          | .ok cs =>
            .ok { customer_id := r.customer_id, name := r.name,
                  region := r.region, contact_number := r.contact_number,
                  email := r.email, customer_score := cs,
                  risk_level := r.risk_level,
                  account_number := r.account_number,
                  account_type := r.account_type, loan_type := r.loan_type,
                  loan_amount := la, outstanding_amount := oa,
                  emi_amount := ea, due_date := r.due_date,
                  payment_status := r.payment_status,
                  last_payment_date := r.last_payment_date,
                  payment_delay_days := pdd }

/-- Coerce every row of the bronze dataframe; the first failing cell aborts
the whole run (lines 17-21 run before any write). -/
def coerceRows : List RawRow → Except PipelineError (List Row)
  | [] => .ok []
  | r :: rest =>
    match coerceRow r with
    | .error e => .error e
    | .ok row =>
      match coerceRows rest with
      | .error e => .error e
      | .ok rows => .ok (row :: rows)

/-- Projection of a coerced row onto the `dim_customer` columns (line 30). -/
def toDimCustomer (r : Row) : DimCustomerRow :=
  { customer_id := r.customer_id, name := r.name, region := r.region,
    contact_number := r.contact_number, email := r.email,
    customer_score := r.customer_score, risk_level := r.risk_level }

/-- Projection of a coerced row onto the `dim_account` columns (line 42). -/
def toDimAccount (r : Row) : DimAccountRow :=
  { account_number := r.account_number, account_type := r.account_type,
    loan_type := r.loan_type }

/-- Projection of a coerced row onto the `fact_loan_payment` columns
(line 54), with the derived columns of lines 25-28. -/
def toFact (r : Row) : FactRow :=
  { customer_id := r.customer_id, account_number := r.account_number,
    loan_amount := r.loan_amount,
    outstanding_amount := r.outstanding_amount,
    emi_amount := r.emi_amount, due_date := r.due_date,
    payment_status := r.payment_status,
    last_payment_date := r.last_payment_date,
    payment_delay_days := r.payment_delay_days,
    payment_on_time_flag := payment_on_time_flag r.payment_delay_days,
    payment_behavior := payment_behavior r.payment_delay_days }

/-- Worker for `drop_duplicates`: keep a row when its key has not been seen
yet (pandas `drop_duplicates(subset=[k])` keeps the first occurrence). -/
def dedupFirstAux {α : Type} (k : α → String) :
    List α → List String → List α
  | [], _ => []
  | a :: rest, seen =>
    if k a ∈ seen then dedupFirstAux k rest seen
    else a :: dedupFirstAux k rest (k a :: seen)

/-- `df.drop_duplicates(subset=[key])` with the default keep-first policy
(lines 32 and 44). -/
def drop_duplicates {α : Type} (k : α → String) (l : List α) : List α :=
  dedupFirstAux k l []

/-- Lookup in the environment association list (first binding wins),
modelling `os.environ`. -/
def envGet (env : List (String × String)) (key : String) : Option String :=
  (env.find? (fun p => p.1 == key)).map (fun p => p.2)

namespace BronzeToSilver

/-- Configuration the bronze-to-silver module reads at import time
(lines 8-11). `BUCKET_NAME`, `BRONZE_PREFIX` and `SILVER_PREFIX` use bare
`os.environ[...]` indexing; the catalog database name uses
`os.environ.get` with default `"loan_analytics"`. Field names avoid the
upper-case source spelling only where the development style requires it. -/
structure Config where
  bucketName : String
  bronzePfx : String
  silverPfx : String
  athenaDatabase : String
deriving DecidableEq

/-- Module import of the bronze-to-silver Lambda (lines 8-11): each bare
`os.environ[...]` lookup raises a `KeyError` (here `missingConfig`) when
the key is absent, so a missing required value fails before
`lambda_handler` can run. -/
def module_init (env : List (String × String)) :
    Except PipelineError Config :=
  match envGet env "BUCKET_NAME" with
  | none => .error (.missingConfig "BUCKET_NAME")
  | some b =>
    match envGet env "BRONZE_PREFIX" with
    | none => .error (.missingConfig "BRONZE_PREFIX")
    | some br =>
      match envGet env "SILVER_PREFIX" with
      | none => .error (.missingConfig "SILVER_PREFIX")
      | some s =>
        .ok { bucketName := b, bronzePfx := br, silverPfx := s,
              athenaDatabase :=
                (envGet env "ATHENA_DATABASE").getD "loan_analytics" }

/-- One `wr.s3.to_parquet` write of the Normalizer, tagged by target
table. -/
inductive SilverWrite where
  | dim_customer (rows : List DimCustomerRow)
  | dim_account (rows : List DimAccountRow)
  | fact_loan_payment (rows : List FactRow)
deriving DecidableEq

/-- The `{status, message}` dictionary returned at line 68. -/
structure Ret where
  status : String
  message : String
deriving DecidableEq

/-- The bronze-to-silver `lambda_handler` (lines 13-68), as a function
from the parsed CSV rows to the list of S3 writes it performs plus its
outcome. Steps, in source order: coerce the five numeric columns
(lines 17-21; on failure the run aborts with no write), filter to
`Loan_Amount > 0` (line 23), derive the two payment columns
(lines 25-28), project and deduplicate `dim_customer` (lines 30-32),
project and deduplicate `dim_account` (lines 42-44), project
`fact_loan_payment` (line 54), write the three tables, and return the
success dictionary (line 68). -/
def lambda_handler (input : List RawRow) :
    List SilverWrite × Except PipelineError Ret :=
  match coerceRows input with
  | .error e => ([], .error e)
  | .ok rows =>
    let retained := rows.filter (fun r => decide ((0 : ℚ) < r.loan_amount))
    let dim_customer :=
      drop_duplicates (fun c => c.customer_id) (retained.map toDimCustomer)
    let dim_account :=
      drop_duplicates (fun a => a.account_number) (retained.map toDimAccount)
    let fact_loan_payment := retained.map toFact
    ([.dim_customer dim_customer, .dim_account dim_account,
      .fact_loan_payment fact_loan_payment],
     .ok { status := "Success", message := "Bronze → Silver ETL completed." })

end BronzeToSilver

/-- Render an optional string the way a Python f-string renders a possibly
missing value: `None` prints as the text `None`. -/
def optStr : Option String → String
  | some s => s
  | none => "None"

namespace SilverToGold

/-- Configuration the silver-to-gold module reads at import time
(lines 17-21). Every lookup is `os.environ.get`: `SILVER_PREFIX` and
`GOLD_PREFIX` have defaults, while the bucket name, the secret name and
the database host silently become `None` when absent. -/
structure Config where
  bucket : Option String
  silverPfx : String
  goldPfx : String
  dbSecretName : Option String
  dbHost : Option String
deriving DecidableEq

/-- Module import of the silver-to-gold Lambda (lines 17-21). It is total:
no absent key raises, because every read uses `os.environ.get`. -/
def module_init (env : List (String × String)) : Config :=
  { bucket := envGet env "BUCKET_NAME",
    silverPfx := (envGet env "SILVER_PREFIX").getD "Silver/",
    goldPfx := (envGet env "GOLD_PREFIX").getD "Gold/",
    dbSecretName := envGet env "DB_SECRET_NAME",
    dbHost := envGet env "DB_HOST" }

/-- `read_parquet_folder_from_s3` (lines 24-40): the input is the list of
per-file row lists obtained from the `.parquet` keys under the prefix
(column names already lower-cased, line 36). With zero fragments it
raises `FileNotFoundError` (line 39); otherwise it concatenates the
fragments (line 40). -/
def read_parquet_folder_from_s3 {α : Type} (frags : List (List α))
    (bucket folder : String) : Except PipelineError (List α) :=
  if frags.isEmpty then
    .error (.notFound
      ("No Parquet files found in s3://" ++ bucket ++ "/" ++ folder))
  else
    .ok frags.flatten

/-- One joined row of `pd.merge(fact_df, customer_df, on="customer_id",
how="left")` (line 104): the fact row together with the matching customer
row, or `none` when no customer matched (null customer attributes). -/
structure MergedRow where
  fact : FactRow
  customer : Option DimCustomerRow
deriving DecidableEq

/-- The `region` column of a merged row: null exactly when the fact row
had no matching customer. -/
def regionKey (m : MergedRow) : Option String :=
  m.customer.map (fun c => c.region)

/-- The merged rows one fact row contributes: one row per matching
customer, or a single row with null customer attributes when no customer
matches (left-join semantics of line 104). -/
def mergeBlock (custs : List DimCustomerRow) (f : FactRow) :
    List MergedRow :=
  let ms := custs.filter (fun c => c.customer_id == f.customer_id)
  if ms.isEmpty then [{ fact := f, customer := none }]
  else ms.map (fun c => { fact := f, customer := some c })

/-- `pd.merge(fact_df, customer_df, on="customer_id", how="left")`
(line 104), preserving the left order. -/
def leftMerge (facts : List FactRow) (custs : List DimCustomerRow) :
    List MergedRow :=
  match facts with
  | [] => []
  | f :: rest => mergeBlock custs f ++ leftMerge rest custs

/-- Insert a string into a sorted list of strings (helper for the sorted
group keys `pandas.groupby` produces). -/
def insertSorted (s : String) : List String → List String
  | [] => [s]
  | t :: ts => if s ≤ t then s :: t :: ts else t :: insertSorted s ts

/-- Sort a list of strings, modelling the `sort=True` default of
`pandas.groupby` on the group keys. -/
def sortStrings (l : List String) : List String :=
  l.foldr insertSorted []

/-- One row of the gold region summary, after the renames of
lines 116-122. -/
structure RegionSummaryRow where
  region : String
  total_loan_amount : ℚ
  total_outstanding_amount : ℚ
  total_emi_amount : ℚ
  avg_payment_delay : ℚ
  customer_count : ℕ
deriving DecidableEq

/-- The merged rows falling into the group of region `r`. -/
def regionGroup (ms : List MergedRow) (r : String) : List MergedRow :=
  ms.filter (fun m => regionKey m == some r)

/-- The aggregate row for one region group (line 107-113): sums of the
three amounts, mean payment delay, and the count of non-null
`customer_id` values; `customer_id` comes from the join key of the fact
side, which is never null, so the count is the group size. -/
def summarizeRegion (ms : List MergedRow) (r : String) : RegionSummaryRow :=
  { region := r,
    total_loan_amount :=
      ((regionGroup ms r).map (fun m => m.fact.loan_amount)).sum,
    total_outstanding_amount :=
      ((regionGroup ms r).map (fun m => m.fact.outstanding_amount)).sum,
    total_emi_amount :=
      ((regionGroup ms r).map (fun m => m.fact.emi_amount)).sum,
    avg_payment_delay :=
      ((regionGroup ms r).map
        (fun m => (m.fact.payment_delay_days : ℚ))).sum /
        ((regionGroup ms r).length : ℚ),
    customer_count := (regionGroup ms r).length }

/-- `merged_df.groupby("region").agg(...)` (lines 107-113): pandas
`groupby` keeps its default `dropna=True`, so rows whose `region` is null
(fact rows with no matching customer) belong to no group; the group keys
are the distinct non-null regions, sorted (default `sort=True`). -/
def groupby_region (ms : List MergedRow) : List RegionSummaryRow :=
  (sortStrings (drop_duplicates id (ms.filterMap regionKey))).map
    (summarizeRegion ms)

/-- The two output side effects of the Aggregator: the gold parquet
artifact (line 125) and the RDS bulk load (line 128). -/
inductive GoldWrite where
  | s3Parquet (bucket : String) (key : String) (rows : List RegionSummaryRow)
  | rdsTable (table : String) (rows : List RegionSummaryRow)
deriving DecidableEq

/-- The `{status, message, record_count}` dictionary returned at
lines 130-134. -/
structure Ret where
  status : String
  message : String
  record_count : ℕ
deriving DecidableEq

/-- The silver-to-gold `lambda_handler` (lines 98-134), as a function from
the configuration and the parquet fragments found under the two silver
prefixes to the list of writes it performs plus its outcome. Both reads
(lines 100-101) run before either write (lines 125 and 128), so a
`notFound` failure produces no write. -/
def lambda_handler (cfg : Config) (factFrags : List (List FactRow))
    (custFrags : List (List DimCustomerRow)) :
    List GoldWrite × Except PipelineError Ret :=
  match read_parquet_folder_from_s3 factFrags (optStr cfg.bucket)
      (cfg.silverPfx ++ "fact_loan_payment/") with
  | .error e => ([], .error e)
  | .ok fact_df =>
    match read_parquet_folder_from_s3 custFrags (optStr cfg.bucket)
        (cfg.silverPfx ++ "dim_customer/") with
    | .error e => ([], .error e)
    | .ok customer_df =>
      let agg_df := groupby_region (leftMerge fact_df customer_df)
      ([.s3Parquet (optStr cfg.bucket)
          (cfg.goldPfx ++ "region_summary/data.parquet") agg_df,
        .rdsTable "customer" agg_df],
       .ok { status := "Success",
             message := "Aggregated region summary saved to Gold layer and customer data loaded into RDS",
             record_count := agg_df.length })

end SilverToGold

/-! ### Helper lemmas about deduplication -/

theorem mem_of_mem_dedupFirstAux {α : Type} (k : α → String) :
    ∀ (l : List α) (seen : List String) (x : α),
      x ∈ dedupFirstAux k l seen → x ∈ l := by
  intro l
  induction l with
  | nil => intro seen x hx; simp [dedupFirstAux] at hx
  | cons a rest ih =>
    intro seen x hx
    by_cases h : k a ∈ seen
    · simp [dedupFirstAux, h] at hx
      exact List.mem_cons_of_mem a (ih seen x hx)
    · simp [dedupFirstAux, h] at hx
      rcases hx with hx | hx
      · simp [hx]
      · exact List.mem_cons_of_mem a (ih (k a :: seen) x hx)

theorem dedupFirstAux_keys {α : Type} (k : α → String) :
    ∀ (l : List α) (seen : List String),
      ((dedupFirstAux k l seen).map k).Nodup ∧
        ∀ s ∈ (dedupFirstAux k l seen).map k, s ∉ seen := by
  intro l
  induction l with
  | nil => intro seen; simp [dedupFirstAux]
  | cons a rest ih =>
    intro seen
    by_cases h : k a ∈ seen
    · simpa [dedupFirstAux, h] using ih seen
    · have h2 := ih (k a :: seen)
      refine ⟨?_, ?_⟩
      · simp only [dedupFirstAux, if_neg h, List.map_cons, List.nodup_cons]
        refine ⟨fun hmem => ?_, h2.1⟩
        exact (h2.2 (k a) hmem) (List.mem_cons_self (k a) seen)
      · intro s hs
        simp only [dedupFirstAux, if_neg h, List.map_cons,
          List.mem_cons] at hs
        rcases hs with hs | hs
        · simpa [hs] using h
        · intro hseen
          exact (h2.2 s hs) (List.mem_cons_of_mem _ hseen)

theorem drop_duplicates_keys_nodup {α : Type} (k : α → String)
    (l : List α) : ((drop_duplicates k l).map k).Nodup :=
  (dedupFirstAux_keys k l []).1

theorem mem_of_mem_drop_duplicates {α : Type} (k : α → String)
    (l : List α) (x : α) (hx : x ∈ drop_duplicates k l) : x ∈ l :=
  mem_of_mem_dedupFirstAux k l [] x hx

theorem mem_dedupFirstAux_id :
    ∀ (l : List String) (seen : List String) (x : String),
      x ∈ l → x ∉ seen → x ∈ dedupFirstAux id l seen := by
  intro l
  induction l with
  | nil => intro seen x hx; simp at hx
  | cons a rest ih =>
    intro seen x hx hseen
    by_cases hax : x = a
    · subst hax
      simp [dedupFirstAux, hseen]
    · have hx2 : x ∈ rest := by
        rcases List.mem_cons.mp hx with h | h
        · exact absurd h hax
        · exact h
      by_cases h : id a ∈ seen
      · simp only [dedupFirstAux, if_pos h]
        exact ih seen x hx2 hseen
      · simp only [dedupFirstAux, if_neg h]
        refine List.mem_cons_of_mem a (ih (id a :: seen) x hx2 ?_)
        intro hc
        rcases List.mem_cons.mp hc with hc | hc
        · exact hax hc
        · exact hseen hc

theorem mem_drop_duplicates_id (l : List String) (x : String) :
    x ∈ drop_duplicates id l ↔ x ∈ l := by
  constructor
  · exact mem_of_mem_drop_duplicates id l x
  · intro hx
    exact mem_dedupFirstAux_id l [] x hx (by simp)

theorem drop_duplicates_id_nodup (l : List String) :
    (drop_duplicates id l).Nodup := by
  have h := drop_duplicates_keys_nodup id l
  simpa using h

/-! ### Helper lemmas about sorting -/

theorem insertSorted_perm (s : String) :
    ∀ l : List String, (SilverToGold.insertSorted s l).Perm (s :: l) := by
  intro l
  induction l with
  | nil => simp [SilverToGold.insertSorted]
  | cons t ts ih =>
    by_cases h : s ≤ t
    · rw [SilverToGold.insertSorted, if_pos h]
    · rw [SilverToGold.insertSorted, if_neg h]
      exact (List.Perm.cons t ih).trans (List.Perm.swap s t ts)

theorem sortStrings_perm (l : List String) :
    (SilverToGold.sortStrings l).Perm l := by
  induction l with
  | nil => simp [SilverToGold.sortStrings]
  | cons a rest ih =>
    have h1 : SilverToGold.sortStrings (a :: rest) =
        SilverToGold.insertSorted a (SilverToGold.sortStrings rest) := rfl
    rw [h1]
    exact (insertSorted_perm a (SilverToGold.sortStrings rest)).trans
      (List.Perm.cons a ih)

/-! ### Inversion lemmas for the two handlers -/

theorem bronze_handler_ok_inv (input : List RawRow)
    (w : List BronzeToSilver.SilverWrite) (ret : BronzeToSilver.Ret)
    (h : BronzeToSilver.lambda_handler input = (w, .ok ret)) :
    ∃ rows, coerceRows input = .ok rows ∧
      w = [.dim_customer (drop_duplicates (fun c => c.customer_id)
             ((rows.filter
               (fun r => decide ((0 : ℚ) < r.loan_amount))).map toDimCustomer)),
           .dim_account (drop_duplicates (fun a => a.account_number)
             ((rows.filter
               (fun r => decide ((0 : ℚ) < r.loan_amount))).map toDimAccount)),
           .fact_loan_payment ((rows.filter
             (fun r => decide ((0 : ℚ) < r.loan_amount))).map toFact)] ∧
      ret = { status := "Success",
              message := "Bronze → Silver ETL completed." } := by
  cases hc : coerceRows input with
  | error e =>
    rw [BronzeToSilver.lambda_handler, hc] at h
    have hr := congrArg Prod.snd h
    injection hr
  | ok rows =>
    rw [BronzeToSilver.lambda_handler, hc] at h
    have hw := congrArg Prod.fst h
    have hr := congrArg Prod.snd h
    injection hr with hb2
    exact ⟨rows, rfl, hw.symm, hb2.symm⟩

theorem gold_handler_ok_inv (cfg : SilverToGold.Config)
    (factFrags : List (List FactRow))
    (custFrags : List (List DimCustomerRow))
    (w : List SilverToGold.GoldWrite) (ret : SilverToGold.Ret)
    (h : SilverToGold.lambda_handler cfg factFrags custFrags = (w, .ok ret)) :
    factFrags ≠ [] ∧ custFrags ≠ [] ∧
      w = [.s3Parquet (optStr cfg.bucket)
             (cfg.goldPfx ++ "region_summary/data.parquet")
             (SilverToGold.groupby_region
               (SilverToGold.leftMerge factFrags.flatten custFrags.flatten)),
           .rdsTable "customer"
             (SilverToGold.groupby_region
               (SilverToGold.leftMerge factFrags.flatten custFrags.flatten))] ∧
      ret = { status := "Success",
              message := "Aggregated region summary saved to Gold layer and customer data loaded into RDS",
              record_count :=
                (SilverToGold.groupby_region
                  (SilverToGold.leftMerge factFrags.flatten
                    custFrags.flatten)).length } := by
  by_cases hf : factFrags.isEmpty
  · rw [SilverToGold.lambda_handler, SilverToGold.read_parquet_folder_from_s3,
      if_pos hf] at h
    have hr := congrArg Prod.snd h
    injection hr
  · by_cases hcf : custFrags.isEmpty
    · rw [SilverToGold.lambda_handler,
        SilverToGold.read_parquet_folder_from_s3, if_neg hf,
        SilverToGold.read_parquet_folder_from_s3, if_pos hcf] at h
      have hr := congrArg Prod.snd h
      injection hr
    · rw [SilverToGold.lambda_handler,
        SilverToGold.read_parquet_folder_from_s3, if_neg hf,
        SilverToGold.read_parquet_folder_from_s3, if_neg hcf] at h
      have hw := congrArg Prod.fst h
      have hr := congrArg Prod.snd h
      injection hr with hb2
      exact ⟨by simpa using hf, by simpa using hcf, hw.symm, hb2.symm⟩

/-! ### Helper lemmas about the left join -/

theorem filter_customer_id_eq {custs : List DimCustomerRow}
    (hnd : (custs.map (fun c => c.customer_id)).Nodup) (v : String) :
    custs.filter (fun c => c.customer_id == v) = [] ∨
      ∃ c, c ∈ custs ∧ c.customer_id = v ∧
        custs.filter (fun c2 => c2.customer_id == v) = [c] := by
  induction custs with
  | nil => left; rfl
  | cons c rest ih =>
    rw [List.map_cons, List.nodup_cons] at hnd
    by_cases hv : c.customer_id = v
    · right
      refine ⟨c, List.mem_cons_self c rest, hv, ?_⟩
      rw [List.filter_cons_of_pos (by simp [hv])]
      have hrest : rest.filter (fun c2 => c2.customer_id == v) = [] := by
        rw [List.filter_eq_nil_iff]
        intro a ha hav
        have hav2 : a.customer_id = v := by simpa using hav
        exact hnd.1 (List.mem_map.mpr ⟨a, ha, by rw [hav2, hv]⟩)
      rw [hrest]
    · rw [List.filter_cons_of_neg (by simp [hv])]
      rcases ih hnd.2 with hnil | ⟨c2, hmem, hcid, heq⟩
      · exact Or.inl hnil
      · exact Or.inr ⟨c2, List.mem_cons_of_mem c hmem, hcid, heq⟩

theorem mergeBlock_no_match (custs : List DimCustomerRow) (f : FactRow)
    (h : custs.filter (fun c => c.customer_id == f.customer_id) = []) :
    SilverToGold.mergeBlock custs f = [{ fact := f, customer := none }] := by
  rw [SilverToGold.mergeBlock]
  simp only [h, List.isEmpty_nil, if_pos]

theorem mergeBlock_single_match (custs : List DimCustomerRow) (f : FactRow)
    (c : DimCustomerRow)
    (h : custs.filter (fun c2 => c2.customer_id == f.customer_id) = [c]) :
    SilverToGold.mergeBlock custs f = [{ fact := f, customer := some c }] := by
  rw [SilverToGold.mergeBlock]
  simp only [h, List.isEmpty_cons, List.map_cons, List.map_nil]
  rfl

theorem leftMerge_cons (f : FactRow) (fs : List FactRow)
    (custs : List DimCustomerRow) :
    SilverToGold.leftMerge (f :: fs) custs =
      SilverToGold.mergeBlock custs f ++ SilverToGold.leftMerge fs custs := rfl

theorem customer_mem_of_mem_mergeBlock (custs : List DimCustomerRow)
    (f : FactRow) (m : SilverToGold.MergedRow) (c : DimCustomerRow)
    (hm : m ∈ SilverToGold.mergeBlock custs f) (hc : m.customer = some c) :
    c ∈ custs := by
  rw [SilverToGold.mergeBlock] at hm
  by_cases hflt :
      (custs.filter (fun c2 => c2.customer_id == f.customer_id)).isEmpty
  · rw [if_pos hflt] at hm
    simp at hm
    rw [hm] at hc
    simp at hc
  · rw [if_neg hflt] at hm
    rcases List.mem_map.mp hm with ⟨c2, hc2, hm2⟩
    rw [← hm2] at hc
    simp at hc
    rw [← hc]
    exact List.mem_of_mem_filter hc2

theorem customer_mem_of_mem_leftMerge (custs : List DimCustomerRow) :
    ∀ (facts : List FactRow) (m : SilverToGold.MergedRow)
      (c : DimCustomerRow), m ∈ SilverToGold.leftMerge facts custs →
      m.customer = some c → c ∈ custs := by
  intro facts
  induction facts with
  | nil => intro m c hm; simp [SilverToGold.leftMerge] at hm
  | cons f fs ih =>
    intro m c hm hc
    rw [leftMerge_cons] at hm
    rcases List.mem_append.mp hm with hm | hm
    · exact customer_mem_of_mem_mergeBlock custs f m c hm hc
    · exact ih m c hm hc

theorem regionGroup_append (xs ys : List SilverToGold.MergedRow) (r : String) :
    SilverToGold.regionGroup (xs ++ ys) r =
      SilverToGold.regionGroup xs r ++ SilverToGold.regionGroup ys r :=
  List.filter_append _ _

theorem sum_regionGroup_leftMerge (custs : List DimCustomerRow)
    (hnd : (custs.map (fun c => c.customer_id)).Nodup) (r : String)
    (g : FactRow → ℚ) :
    ∀ facts : List FactRow,
      ((SilverToGold.regionGroup (SilverToGold.leftMerge facts custs) r).map
        (fun m => g m.fact)).sum =
      ((facts.filter (fun f => custs.any (fun c =>
          c.customer_id == f.customer_id && c.region == r))).map g).sum := by
  intro facts
  induction facts with
  | nil => rfl
  | cons f fs ih =>
    rw [leftMerge_cons, regionGroup_append, List.map_append, List.sum_append,
      ih]
    rcases filter_customer_id_eq hnd f.customer_id with hnil | ⟨c, hc, hcid, hone⟩
    · rw [mergeBlock_no_match custs f hnil]
      have hb : SilverToGold.regionGroup
          [{ fact := f, customer := none }] r = [] := by
        simp [SilverToGold.regionGroup, SilverToGold.regionKey]
      have hpf : (custs.any (fun c =>
          c.customer_id == f.customer_id && c.region == r)) = false := by
        rw [List.any_eq_false]
        intro c2 hcmem hx
        have h1 : c2.customer_id = f.customer_id := by
          have h2 := (Bool.and_eq_true _ _).mp hx
          simpa using h2.1
        have h3 : c2 ∈ custs.filter
            (fun c3 => c3.customer_id == f.customer_id) :=
          List.mem_filter.mpr ⟨hcmem, by simp [h1]⟩
        rw [hnil] at h3
        simp at h3
      rw [hb, List.filter_cons_of_neg (by simp [hpf])]
      simp
    · by_cases hr : c.region = r
      · rw [mergeBlock_single_match custs f c hone]
        have hb : SilverToGold.regionGroup
            [{ fact := f, customer := some c }] r =
            [{ fact := f, customer := some c }] := by
          simp [SilverToGold.regionGroup, SilverToGold.regionKey, hr]
        have hpf : (custs.any (fun c2 =>
            c2.customer_id == f.customer_id && c2.region == r)) = true :=
          List.any_eq_true.mpr ⟨c, hc, by simp [hcid, hr]⟩
        rw [hb, List.filter_cons_of_pos (by simp [hpf])]
        simp
      · rw [mergeBlock_single_match custs f c hone]
        have hb : SilverToGold.regionGroup
            [{ fact := f, customer := some c }] r = [] := by
          simp [SilverToGold.regionGroup, SilverToGold.regionKey, hr]
        have hpf : (custs.any (fun c2 =>
            c2.customer_id == f.customer_id && c2.region == r)) = false := by
          rw [List.any_eq_false]
          intro c2 hcmem hx
          have h2 := (Bool.and_eq_true _ _).mp hx
          have h1 : c2.customer_id = f.customer_id := by simpa using h2.1
          have h4 : c2.region = r := by simpa using h2.2
          have h3 : c2 ∈ custs.filter
              (fun c3 => c3.customer_id == f.customer_id) :=
            List.mem_filter.mpr ⟨hcmem, by simp [h1]⟩
          rw [hone] at h3
          simp at h3
          rw [h3] at h4
          exact hr h4
        rw [hb, List.filter_cons_of_neg (by simp [hpf])]
        simp

/-! ### Helper lemmas about grouping -/

theorem mem_groupby_region (ms : List SilverToGold.MergedRow)
    (s : SilverToGold.RegionSummaryRow)
    (hs : s ∈ SilverToGold.groupby_region ms) :
    s = SilverToGold.summarizeRegion ms s.region ∧
      ∃ m ∈ ms, SilverToGold.regionKey m = some s.region := by
  rw [SilverToGold.groupby_region] at hs
  rcases List.mem_map.mp hs with ⟨r, hrmem, hsz⟩
  have hreg : s.region = r := by rw [← hsz]; rfl
  have hr2 : r ∈ drop_duplicates id
      (ms.filterMap SilverToGold.regionKey) :=
    (sortStrings_perm _).mem_iff.mp hrmem
  have hr3 : r ∈ ms.filterMap SilverToGold.regionKey :=
    (mem_drop_duplicates_id _ r).mp hr2
  rcases List.mem_filterMap.mp hr3 with ⟨m, hm, hmr⟩
  exact ⟨by rw [hreg, hsz], m, hm, by rw [hreg, hmr]⟩

theorem groupby_region_length (ms : List SilverToGold.MergedRow) :
    (SilverToGold.groupby_region ms).length =
      ((ms.filterMap SilverToGold.regionKey).toFinset).card := by
  rw [SilverToGold.groupby_region, List.length_map]
  rw [(sortStrings_perm _).length_eq]
  have hnd := drop_duplicates_id_nodup (ms.filterMap SilverToGold.regionKey)
  rw [← List.toFinset_card_of_nodup hnd]
  congr 1
  ext x
  simp [List.mem_toFinset, mem_drop_duplicates_id]

/-! ### Helper lemmas about type coercion -/

/-- Whether a raw cell is non-numeric text. -/
def isText : RawCell → Bool
  | .num _ => false
  | .text _ => true

/-- Whether a raw row has a non-numeric value in one of the five columns
the Normalizer coerces. -/
def rowHasNonNumeric (r : RawRow) : Bool :=
  isText r.loan_amount || isText r.outstanding_amount ||
    isText r.emi_amount || isText r.payment_delay_days ||
    isText r.customer_score

theorem astype_float_error (x : RawCell) (e : PipelineError)
    (h : astype_float x = .error e) : ∃ s, e = .typeCoercion s := by
  cases x with
  | num q => simp [astype_float] at h
  | text s =>
    rw [astype_float] at h
    injection h with h2
    exact ⟨s, h2.symm⟩

theorem astype_int_error (x : RawCell) (e : PipelineError)
    (h : astype_int x = .error e) : ∃ s, e = .typeCoercion s := by
  cases x with
  | num q => simp [astype_int] at h
  | text s =>
    rw [astype_int] at h
    injection h with h2
    exact ⟨s, h2.symm⟩

theorem coerceRow_error_shape (r : RawRow) (e : PipelineError)
    (h : coerceRow r = .error e) : ∃ s, e = .typeCoercion s := by
  rw [coerceRow] at h
  cases hla : astype_float r.loan_amount with
  | error e1 =>
    rw [hla] at h
    injection h with h2
    exact h2 ▸ astype_float_error _ _ hla
  | ok la =>
    rw [hla] at h
    cases hoa : astype_float r.outstanding_amount with
    | error e1 =>
      rw [hoa] at h
      injection h with h2
      exact h2 ▸ astype_float_error _ _ hoa
    | ok oa =>
      rw [hoa] at h
      cases hea : astype_float r.emi_amount with
      | error e1 =>
        rw [hea] at h
        injection h with h2
        exact h2 ▸ astype_float_error _ _ hea
      | ok ea =>
        rw [hea] at h
        cases hpd : astype_int r.payment_delay_days with
        | error e1 =>
          rw [hpd] at h
          injection h with h2
          exact h2 ▸ astype_int_error _ _ hpd
        | ok pdd =>
          rw [hpd] at h
          cases hcs : astype_int r.customer_score with
          | error e1 =>
            rw [hcs] at h
            injection h with h2
            exact h2 ▸ astype_int_error _ _ hcs
          | ok cs =>
            rw [hcs] at h
            exact absurd h (by simp)

theorem coerceRow_error_of_nonNumeric (r : RawRow)
    (h : rowHasNonNumeric r = true) :
    ∃ s, coerceRow r = .error (.typeCoercion s) := by
  rw [rowHasNonNumeric] at h
  cases hla : r.loan_amount with
  | text s => exact ⟨s, by rw [coerceRow, hla]; rfl⟩
  | num qla =>
    cases hoa : r.outstanding_amount with
    | text s => exact ⟨s, by rw [coerceRow, hla, hoa]; rfl⟩
    | num qoa =>
      cases hea : r.emi_amount with
      | text s => exact ⟨s, by rw [coerceRow, hla, hoa, hea]; rfl⟩
      | num qea =>
        cases hpd : r.payment_delay_days with
        | text s => exact ⟨s, by rw [coerceRow, hla, hoa, hea, hpd]; rfl⟩
        | num qpd =>
          cases hcs : r.customer_score with
          | text s => exact ⟨s, by rw [coerceRow, hla, hoa, hea, hpd, hcs]; rfl⟩
          | num qcs =>
            rw [hla, hoa, hea, hpd, hcs] at h
            simp [isText] at h

theorem coerceRows_error_of_mem (input : List RawRow)
    (h : ∃ r ∈ input, rowHasNonNumeric r = true) :
    ∃ s, coerceRows input = .error (.typeCoercion s) := by
  induction input with
  | nil => simp at h
  | cons a rest ih =>
    rcases h with ⟨r, hr, hbad⟩
    rcases List.mem_cons.mp hr with hr | hr
    · rcases coerceRow_error_of_nonNumeric a (hr ▸ hbad) with ⟨s, hs⟩
      exact ⟨s, by rw [coerceRows, hs]⟩
    · cases hca : coerceRow a with
      | error e =>
        rcases coerceRow_error_shape a e hca with ⟨s, hse⟩
        exact ⟨s, by rw [coerceRows, hca, hse]⟩
      | ok row =>
        rcases ih ⟨r, hr, hbad⟩ with ⟨s, hs⟩
        exact ⟨s, by rw [coerceRows, hca, hs]⟩

/-! ### Classification of the payment behavior label -/

theorem payment_behavior_spec (d : ℤ) :
    (payment_behavior d = "Good" ↔ d = 0) ∧
    (payment_behavior d = "Average" ↔ (d ≠ 0 ∧ d ≤ 10)) ∧
    (payment_behavior d = "Delayed" ↔ 10 < d) := by
  rw [payment_behavior]
  split_ifs with h0 h10
  · refine ⟨⟨fun _ => h0, fun _ => rfl⟩, ⟨?_, ?_⟩, ⟨?_, ?_⟩⟩
    · intro hg; exact absurd hg (by decide)
    · intro hc; exact absurd h0 hc.1
    · intro hg; exact absurd hg (by decide)
    · intro hlt; exfalso; omega
  · refine ⟨⟨?_, ?_⟩, ⟨fun _ => ⟨h0, h10⟩, fun _ => rfl⟩, ⟨?_, ?_⟩⟩
    · intro hg; exact absurd hg (by decide)
    · intro hz; exact absurd hz h0
    · intro hg; exact absurd hg (by decide)
    · intro hlt; exfalso; omega
  · refine ⟨⟨?_, ?_⟩, ⟨?_, ?_⟩, ⟨fun _ => by omega, fun _ => rfl⟩⟩
    · intro hg; exact absurd hg (by decide)
    · intro hz; exact absurd hz h0
    · intro hg; exact absurd hg (by decide)
    · intro hc; exact absurd hc.2 h10

/-! ### Example inputs -/

/-- A retained bronze row with a negative payment delay. -/
def negDelayRow : RawRow :=
  { customer_id := "C1", name := "Ann", region := "North",
    contact_number := "555", email := "ann@example.com",
    customer_score := .num 7, risk_level := "Low", account_number := "A1",
    account_type := "Savings", loan_type := "Home",
    loan_amount := .num 100, outstanding_amount := .num 40,
    emi_amount := .num 5, due_date := "2024-01-01",
    payment_status := "Paid", last_payment_date := "2023-12-30",
    payment_delay_days := .num (-1) }

/-- The fact row the Normalizer produces from `negDelayRow`. -/
def negDelayFact : FactRow :=
  { customer_id := "C1", account_number := "A1", loan_amount := 100,
    outstanding_amount := 40, emi_amount := 5, due_date := "2024-01-01",
    payment_status := "Paid", last_payment_date := "2023-12-30",
    payment_delay_days := -1, payment_on_time_flag := "No",
    payment_behavior := "Average" }

/-! ### C3 -/

/-- C3, counterexample: on a retained row with `payment_delay_days = -1`
the code labels `payment_behavior` as "Average", although the claim
requires "Average" exactly when `0 < payment_delay_days <= 10`; the
claimed iff is therefore false on this run. -/
theorem C3_counterexample_negative_delay :
    BronzeToSilver.SilverWrite.fact_loan_payment [negDelayFact] ∈
        (BronzeToSilver.lambda_handler [negDelayRow]).1 ∧
      negDelayFact.payment_delay_days = -1 ∧
      negDelayFact.payment_behavior = "Average" ∧
      ¬(0 < negDelayFact.payment_delay_days ∧
        negDelayFact.payment_delay_days ≤ 10) := by decide

/-- C3, amended: for every retained row, `payment_behavior` is "Good" iff
the delay is 0, "Average" iff the delay is nonzero and at most 10 (this
includes negative delays), "Delayed" iff the delay exceeds 10; it is a
deterministic function of `payment_delay_days` and always exactly one of
the three labels (the three iffs cover all integers and are mutually
exclusive). -/
theorem C3_payment_behavior_thresholds (input : List RawRow)
    (w : List BronzeToSilver.SilverWrite) (ret : BronzeToSilver.Ret)
    (fact : List FactRow)
    (h : BronzeToSilver.lambda_handler input = (w, .ok ret))
    (hw : BronzeToSilver.SilverWrite.fact_loan_payment fact ∈ w) :
    ∀ x ∈ fact,
      x.payment_behavior = payment_behavior x.payment_delay_days ∧
        (x.payment_behavior = "Good" ↔ x.payment_delay_days = 0) ∧
        (x.payment_behavior = "Average" ↔
          (x.payment_delay_days ≠ 0 ∧ x.payment_delay_days ≤ 10)) ∧
        (x.payment_behavior = "Delayed" ↔ 10 < x.payment_delay_days) := by
  rcases bronze_handler_ok_inv input w ret h with ⟨rows, hc, hwl, hret⟩
  subst hwl
  simp only [List.mem_cons, List.not_mem_nil, or_false] at hw
  rcases hw with hw | hw | hw
  · exact absurd hw (by simp)
  · exact absurd hw (by simp)
  · injection hw with hf
    subst hf
    intro x hx
    rcases List.mem_map.mp hx with ⟨r, hr, hxr⟩
    have hb : x.payment_behavior = payment_behavior x.payment_delay_days := by
      rw [← hxr]; rfl
    exact ⟨hb, hb ▸ payment_behavior_spec x.payment_delay_days⟩

/-- The customer dimension row the Normalizer produces from `negDelayRow`. -/
def negDelayDimCustomer : DimCustomerRow :=
  { customer_id := "C1", name := "Ann", region := "North",
    contact_number := "555", email := "ann@example.com",
    customer_score := 7, risk_level := "Low" }

/-- The account dimension row the Normalizer produces from `negDelayRow`. -/
def negDelayDimAccount : DimAccountRow :=
  { account_number := "A1", account_type := "Savings",
    loan_type := "Home" }

/-- C3, witness: the amended theorem applied to the concrete one-row run
on `negDelayRow`. -/
theorem C3_witness :
    negDelayFact.payment_behavior =
        payment_behavior negDelayFact.payment_delay_days ∧
      (negDelayFact.payment_behavior = "Good" ↔
        negDelayFact.payment_delay_days = 0) ∧
      (negDelayFact.payment_behavior = "Average" ↔
        (negDelayFact.payment_delay_days ≠ 0 ∧
          negDelayFact.payment_delay_days ≤ 10)) ∧
      (negDelayFact.payment_behavior = "Delayed" ↔
        10 < negDelayFact.payment_delay_days) :=
  C3_payment_behavior_thresholds [negDelayRow]
    [.dim_customer [negDelayDimCustomer], .dim_account [negDelayDimAccount],
     .fact_loan_payment [negDelayFact]]
    { status := "Success", message := "Bronze → Silver ETL completed." }
    [negDelayFact] (by decide) (by decide) negDelayFact (by decide)

/-! ### C4 -/

/-- C4: every input row whose coerced `loan_amount` is not positive is
excluded from all three output tables: every written fact row has a
positive loan amount, and every written dimension row is the projection
of some coerced row with a positive loan amount (so a row failing the
filter contributes to no output). -/
theorem C4_filter_excludes_nonpositive (input : List RawRow)
    (rows : List Row) (w : List BronzeToSilver.SilverWrite)
    (ret : BronzeToSilver.Ret) (dc : List DimCustomerRow)
    (da : List DimAccountRow) (f : List FactRow)
    (h : BronzeToSilver.lambda_handler input = (w, .ok ret))
    (hco : coerceRows input = .ok rows)
    (hdc : BronzeToSilver.SilverWrite.dim_customer dc ∈ w)
    (hda : BronzeToSilver.SilverWrite.dim_account da ∈ w)
    (hf : BronzeToSilver.SilverWrite.fact_loan_payment f ∈ w) :
    (∀ x ∈ f, 0 < x.loan_amount) ∧
      (∀ c ∈ dc, ∃ r ∈ rows, 0 < r.loan_amount ∧ c = toDimCustomer r) ∧
      (∀ a ∈ da, ∃ r ∈ rows, 0 < r.loan_amount ∧ a = toDimAccount r) := by
  rcases bronze_handler_ok_inv input w ret h with ⟨rows2, hc, hwl, hret⟩
  rw [hco] at hc
  injection hc with hc
  subst hc
  subst hwl
  simp only [List.mem_cons, List.not_mem_nil, or_false] at hdc hda hf
  rcases hdc with hdc | hdc | hdc
  rotate_left
  · exact absurd hdc (by simp)
  · exact absurd hdc (by simp)
  rcases hda with hda | hda | hda
  · exact absurd hda (by simp)
  rotate_left
  · exact absurd hda (by simp)
  rcases hf with hf | hf | hf
  · exact absurd hf (by simp)
  · exact absurd hf (by simp)
  injection hdc with hdc
  injection hda with hda
  injection hf with hf
  subst hdc
  subst hda
  subst hf
  refine ⟨?_, ?_, ?_⟩
  · intro x hx
    rcases List.mem_map.mp hx with ⟨r, hr, hxr⟩
    rcases List.mem_filter.mp hr with ⟨hmem, hpos⟩
    have hla : 0 < r.loan_amount := of_decide_eq_true hpos
    rw [← hxr]
    exact hla
  · intro c hcmem
    have hc2 := mem_of_mem_drop_duplicates _ _ _ hcmem
    rcases List.mem_map.mp hc2 with ⟨r, hr, hcr⟩
    rcases List.mem_filter.mp hr with ⟨hmem, hpos⟩
    exact ⟨r, hmem, of_decide_eq_true hpos, hcr.symm⟩
  · intro a hamem
    have ha2 := mem_of_mem_drop_duplicates _ _ _ hamem
    rcases List.mem_map.mp ha2 with ⟨r, hr, har⟩
    rcases List.mem_filter.mp hr with ⟨hmem, hpos⟩
    exact ⟨r, hmem, of_decide_eq_true hpos, har.symm⟩

/-- A bronze row that fails the `loan_amount > 0` filter. -/
def zeroLoanRow : RawRow :=
  { customer_id := "C2", name := "Bob", region := "South",
    contact_number := "556", email := "bob@example.com",
    customer_score := .num 4, risk_level := "High", account_number := "A2",
    account_type := "Current", loan_type := "Auto",
    loan_amount := .num 0, outstanding_amount := .num 10,
    emi_amount := .num 1, due_date := "2024-02-01",
    payment_status := "Late", last_payment_date := "2023-11-30",
    payment_delay_days := .num 15 }

/-- The coerced form of `negDelayRow`. -/
def negDelayCoerced : Row :=
  { customer_id := "C1", name := "Ann", region := "North",
    contact_number := "555", email := "ann@example.com",
    customer_score := 7, risk_level := "Low", account_number := "A1",
    account_type := "Savings", loan_type := "Home", loan_amount := 100,
    outstanding_amount := 40, emi_amount := 5, due_date := "2024-01-01",
    payment_status := "Paid", last_payment_date := "2023-12-30",
    payment_delay_days := -1 }

/-- The coerced form of `zeroLoanRow`. -/
def zeroLoanCoerced : Row :=
  { customer_id := "C2", name := "Bob", region := "South",
    contact_number := "556", email := "bob@example.com",
    customer_score := 4, risk_level := "High", account_number := "A2",
    account_type := "Current", loan_type := "Auto", loan_amount := 0,
    outstanding_amount := 10, emi_amount := 1, due_date := "2024-02-01",
    payment_status := "Late", last_payment_date := "2023-11-30",
    payment_delay_days := 15 }

/-- C4, witness: on a run containing a `loan_amount = 0` row, the one
written fact row has a positive loan amount. -/
theorem C4_witness : 0 < negDelayFact.loan_amount :=
  (C4_filter_excludes_nonpositive [negDelayRow, zeroLoanRow]
    [negDelayCoerced, zeroLoanCoerced]
    [.dim_customer [negDelayDimCustomer], .dim_account [negDelayDimAccount],
     .fact_loan_payment [negDelayFact]]
    { status := "Success", message := "Bronze → Silver ETL completed." }
    [negDelayDimCustomer] [negDelayDimAccount] [negDelayFact]
    (by decide) (by decide) (by decide) (by decide) (by decide)).1
    negDelayFact (by decide)

/-! ### C5 -/

/-- C5: for every input, including inputs with duplicate customer ids or
account numbers, the written customer dimension has pairwise distinct
customer ids and the written account dimension has pairwise distinct
account numbers (`drop_duplicates` on the key column at lines 32 and 44). -/
theorem C5_dimension_keys_unique (input : List RawRow)
    (w : List BronzeToSilver.SilverWrite) (ret : BronzeToSilver.Ret)
    (dc : List DimCustomerRow) (da : List DimAccountRow)
    (h : BronzeToSilver.lambda_handler input = (w, .ok ret))
    (hdc : BronzeToSilver.SilverWrite.dim_customer dc ∈ w)
    (hda : BronzeToSilver.SilverWrite.dim_account da ∈ w) :
    (dc.map (fun c => c.customer_id)).Nodup ∧
      (da.map (fun a => a.account_number)).Nodup := by
  rcases bronze_handler_ok_inv input w ret h with ⟨rows, hc, hwl, hret⟩
  subst hwl
  simp only [List.mem_cons, List.not_mem_nil, or_false] at hdc hda
  rcases hdc with hdc | hdc | hdc
  rotate_left
  · exact absurd hdc (by simp)
  · exact absurd hdc (by simp)
  rcases hda with hda | hda | hda
  · exact absurd hda (by simp)
  rotate_left
  · exact absurd hda (by simp)
  injection hdc with hdc
  injection hda with hda
  subst hdc
  subst hda
  exact ⟨drop_duplicates_keys_nodup _ _, drop_duplicates_keys_nodup _ _⟩

/-- A second bronze row with the same customer id and account number as
`negDelayRow` but different attributes (a duplicate-key input). -/
def dupKeyRow : RawRow :=
  { customer_id := "C1", name := "Ann Other", region := "East",
    contact_number := "557", email := "ann2@example.com",
    customer_score := .num 9, risk_level := "Medium",
    account_number := "A1", account_type := "Current",
    loan_type := "Auto", loan_amount := .num 70,
    outstanding_amount := .num 20, emi_amount := .num 3,
    due_date := "2024-03-01", payment_status := "Paid",
    last_payment_date := "2024-02-20", payment_delay_days := .num 2 }

/-- The fact row the Normalizer produces from `dupKeyRow`. -/
def dupKeyFact : FactRow :=
  { customer_id := "C1", account_number := "A1", loan_amount := 70,
    outstanding_amount := 20, emi_amount := 3, due_date := "2024-03-01",
    payment_status := "Paid", last_payment_date := "2024-02-20",
    payment_delay_days := 2, payment_on_time_flag := "No",
    payment_behavior := "Average" }

/-- C5, witness: the theorem applied to a run whose input repeats
customer id "C1" and account number "A1"; both dimensions keep one row. -/
theorem C5_witness :
    (([negDelayDimCustomer].map (fun c => c.customer_id)).Nodup ∧
      ([negDelayDimAccount].map (fun a => a.account_number)).Nodup) :=
  C5_dimension_keys_unique [negDelayRow, dupKeyRow]
    [.dim_customer [negDelayDimCustomer], .dim_account [negDelayDimAccount],
     .fact_loan_payment [negDelayFact, dupKeyFact]]
    { status := "Success", message := "Bronze → Silver ETL completed." }
    [negDelayDimCustomer] [negDelayDimAccount]
    (by decide) (by decide) (by decide)

/-! ### C9 -/

/-- C9: every retained row with a negative `payment_delay_days` gets
`payment_on_time_flag = "No"` (line 25: the flag is "Yes" only at 0) and
`payment_behavior = "Average"` (line 27: every nonzero delay at most 10,
negative delays included, takes the "Average" branch). -/
theorem C9_negative_delay_average (input : List RawRow)
    (w : List BronzeToSilver.SilverWrite) (ret : BronzeToSilver.Ret)
    (fact : List FactRow)
    (h : BronzeToSilver.lambda_handler input = (w, .ok ret))
    (hw : BronzeToSilver.SilverWrite.fact_loan_payment fact ∈ w) :
    ∀ x ∈ fact, x.payment_delay_days < 0 →
      x.payment_on_time_flag = "No" ∧ x.payment_behavior = "Average" := by
  rcases bronze_handler_ok_inv input w ret h with ⟨rows, hc, hwl, hret⟩
  subst hwl
  simp only [List.mem_cons, List.not_mem_nil, or_false] at hw
  rcases hw with hw | hw | hw
  · exact absurd hw (by simp)
  · exact absurd hw (by simp)
  injection hw with hf
  subst hf
  intro x hx hneg
  rcases List.mem_map.mp hx with ⟨r, hr, hxr⟩
  have hd : x.payment_delay_days = r.payment_delay_days := by
    rw [← hxr]; rfl
  rw [hd] at hneg
  constructor
  · rw [← hxr]
    show payment_on_time_flag r.payment_delay_days = "No"
    rw [payment_on_time_flag, if_neg (by omega)]
  · rw [← hxr]
    show payment_behavior r.payment_delay_days = "Average"
    rw [payment_behavior, if_neg (by omega), if_pos (by omega)]

/-- C9, witness: the theorem applied to the run on `negDelayRow`, whose
delay is -1. -/
theorem C9_witness :
    negDelayFact.payment_on_time_flag = "No" ∧
      negDelayFact.payment_behavior = "Average" :=
  C9_negative_delay_average [negDelayRow]
    [.dim_customer [negDelayDimCustomer], .dim_account [negDelayDimAccount],
     .fact_loan_payment [negDelayFact]]
    { status := "Success", message := "Bronze → Silver ETL completed." }
    [negDelayFact] (by decide) (by decide) negDelayFact (by decide)
    (by decide)

/-! ### C7 -/

/-- C7: when any row has a non-numeric value in one of the five coerced
columns, the Normalizer run fails with a type coercion error and performs
no write at all: the `astype` calls of lines 17-21 run before the first
`to_parquet` call, so the failure leaves the write list empty. -/
theorem C7_nonnumeric_aborts_run (input : List RawRow)
    (h : ∃ r ∈ input, rowHasNonNumeric r = true) :
    ∃ s, BronzeToSilver.lambda_handler input =
      ([], .error (.typeCoercion s)) := by
  rcases coerceRows_error_of_mem input h with ⟨s, hs⟩
  exact ⟨s, by rw [BronzeToSilver.lambda_handler, hs]⟩

/-- A bronze row whose `loan_amount` cell is non-numeric text. -/
def badLoanRow : RawRow :=
  { customer_id := "C3", name := "Cal", region := "West",
    contact_number := "558", email := "cal@example.com",
    customer_score := .num 6, risk_level := "Low", account_number := "A3",
    account_type := "Savings", loan_type := "Home",
    loan_amount := .text "n/a", outstanding_amount := .num 10,
    emi_amount := .num 1, due_date := "2024-04-01",
    payment_status := "Paid", last_payment_date := "2024-03-20",
    payment_delay_days := .num 0 }

/-- C7, witness: a run whose second row has the text "n/a" in
`loan_amount` aborts with a type coercion error and writes nothing. -/
theorem C7_witness :
    ∃ s, BronzeToSilver.lambda_handler [negDelayRow, badLoanRow] =
      ([], .error (.typeCoercion s)) :=
  C7_nonnumeric_aborts_run [negDelayRow, badLoanRow]
    ⟨badLoanRow, by decide, by decide⟩

/-! ### C8 -/

/-- C8, counterexample: with an empty environment — every configuration
value absent — the silver-to-gold module import succeeds and yields a
configuration with `None` for the bucket name, the secret name and the
database host (lines 17-21 all use `os.environ.get`), and the handler
then proceeds into processing instead of failing at startup: on nonempty
input fragments it completes with status "Success". The claimed fail-fast
behaviour therefore does not hold for the Aggregator. -/
theorem C8_counterexample_aggregator_never_fails_fast :
    SilverToGold.module_init [] =
        { bucket := none, silverPfx := "Silver/", goldPfx := "Gold/",
          dbSecretName := none, dbHost := none } ∧
      (SilverToGold.lambda_handler (SilverToGold.module_init [])
          [[negDelayFact]] [[negDelayDimCustomer]]).2 =
        .ok { status := "Success",
              message := "Aggregated region summary saved to Gold layer and customer data loaded into RDS",
              record_count := 1 } := by decide

/-- C8, amended: only the Normalizer fails fast at startup on missing
required configuration (its bucket name and both prefixes are read with
bare indexing, lines 8-10); the Aggregator reads every configuration
value with a defaulting lookup, so absent values never fail at startup:
the prefixes fall back to "Silver/" and "Gold/" and the bucket name,
secret name and database host silently become null. -/
theorem C8_mixed_fail_fast (env env2 : List (String × String))
    (h : envGet env "BUCKET_NAME" = none ∨
         envGet env "BRONZE_PREFIX" = none ∨
         envGet env "SILVER_PREFIX" = none) :
    (∃ k, BronzeToSilver.module_init env = .error (.missingConfig k)) ∧
      ((envGet env2 "SILVER_PREFIX" = none →
          (SilverToGold.module_init env2).silverPfx = "Silver/") ∧
        (envGet env2 "GOLD_PREFIX" = none →
          (SilverToGold.module_init env2).goldPfx = "Gold/") ∧
        (envGet env2 "BUCKET_NAME" = none →
          (SilverToGold.module_init env2).bucket = none) ∧
        (envGet env2 "DB_SECRET_NAME" = none →
          (SilverToGold.module_init env2).dbSecretName = none) ∧
        (envGet env2 "DB_HOST" = none →
          (SilverToGold.module_init env2).dbHost = none)) := by
  constructor
  · cases hb : envGet env "BUCKET_NAME" with
    | none =>
      exact ⟨"BUCKET_NAME", by rw [BronzeToSilver.module_init, hb]⟩
    | some b =>
      cases hbr : envGet env "BRONZE_PREFIX" with
      | none =>
        exact ⟨"BRONZE_PREFIX",
          by rw [BronzeToSilver.module_init, hb, hbr]⟩
      | some br =>
        cases hsv : envGet env "SILVER_PREFIX" with
        | none =>
          exact ⟨"SILVER_PREFIX",
            by rw [BronzeToSilver.module_init, hb, hbr, hsv]⟩
        | some sv =>
          rcases h with h | h | h <;> simp_all
  · refine ⟨?_, ?_, ?_, ?_, ?_⟩ <;>
      intro he <;> simp [SilverToGold.module_init, he]

/-- C8, witness: the amended theorem applied to the empty environment on
both sides. -/
theorem C8_witness :
    (∃ k, BronzeToSilver.module_init [] = .error (.missingConfig k)) ∧
      ((envGet [] "SILVER_PREFIX" = none →
          (SilverToGold.module_init []).silverPfx = "Silver/") ∧
        (envGet [] "GOLD_PREFIX" = none →
          (SilverToGold.module_init []).goldPfx = "Gold/") ∧
        (envGet [] "BUCKET_NAME" = none →
          (SilverToGold.module_init []).bucket = none) ∧
        (envGet [] "DB_SECRET_NAME" = none →
          (SilverToGold.module_init []).dbSecretName = none) ∧
        (envGet [] "DB_HOST" = none →
          (SilverToGold.module_init []).dbHost = none)) :=
  C8_mixed_fail_fast [] [] (Or.inl rfl)

/-! ### C10 -/

/-- C10: whenever either handler returns a dictionary at all, its status
field is the literal "Success" (the single return statements at line 68
and lines 130-134); every failure path instead raises, so no failure is
reported through the return value. -/
theorem C10_status_always_success :
    (∀ (input : List RawRow) (w : List BronzeToSilver.SilverWrite)
        (ret : BronzeToSilver.Ret),
        BronzeToSilver.lambda_handler input = (w, .ok ret) →
        ret.status = "Success") ∧
      (∀ (cfg : SilverToGold.Config) (ff : List (List FactRow))
          (cf : List (List DimCustomerRow))
          (w : List SilverToGold.GoldWrite) (ret : SilverToGold.Ret),
          SilverToGold.lambda_handler cfg ff cf = (w, .ok ret) →
          ret.status = "Success") := by
  constructor
  · intro input w ret h
    rcases bronze_handler_ok_inv input w ret h with ⟨rows, _, _, hret⟩
    rw [hret]
  · intro cfg ff cf w ret h
    rcases gold_handler_ok_inv cfg ff cf w ret h with ⟨_, _, _, hret⟩
    rw [hret]

/-- The Aggregator configuration used by the concrete example runs. -/
def exGoldCfg : SilverToGold.Config :=
  { bucket := some "bkt", silverPfx := "Silver/", goldPfx := "Gold/",
    dbSecretName := some "sec", dbHost := some "host" }

/-- C10, witness: both branches of the theorem applied to concrete
successful runs. -/
theorem C10_witness :
    ({ status := "Success",
       message := "Bronze → Silver ETL completed." } :
        BronzeToSilver.Ret).status = "Success" ∧
      ({ status := "Success",
         message := "Aggregated region summary saved to Gold layer and customer data loaded into RDS",
         record_count := 1 } : SilverToGold.Ret).status = "Success" :=
  ⟨C10_status_always_success.1 [negDelayRow]
      [.dim_customer [negDelayDimCustomer],
       .dim_account [negDelayDimAccount],
       .fact_loan_payment [negDelayFact]] _ (by decide),
    C10_status_always_success.2 exGoldCfg [[negDelayFact]]
      [[negDelayDimCustomer]]
      (SilverToGold.lambda_handler exGoldCfg [[negDelayFact]]
        [[negDelayDimCustomer]]).1 _ (Prod.ext rfl (by decide))⟩

/-! ### C6 -/

/-- C6: when either silver prefix yields zero parquet fragments, the
Aggregator fails with the not-found error raised inside
`read_parquet_folder_from_s3` (line 39) and performs neither the gold
parquet write nor the relational bulk load: both reads (lines 100-101)
precede both writes (lines 125, 128), so the write list is empty. -/
theorem C6_empty_prefix_aborts (cfg : SilverToGold.Config)
    (ff : List (List FactRow)) (cf : List (List DimCustomerRow))
    (h : ff = [] ∨ cf = []) :
    ∃ p, SilverToGold.lambda_handler cfg ff cf =
      ([], .error (.notFound p)) := by
  rcases h with h | h
  · subst h
    refine ⟨"No Parquet files found in s3://" ++ optStr cfg.bucket ++ "/" ++
      (cfg.silverPfx ++ "fact_loan_payment/"), ?_⟩
    rw [SilverToGold.lambda_handler,
      SilverToGold.read_parquet_folder_from_s3]
    rfl
  · subst h
    by_cases hf : ff.isEmpty
    · refine ⟨"No Parquet files found in s3://" ++ optStr cfg.bucket ++
        "/" ++ (cfg.silverPfx ++ "fact_loan_payment/"), ?_⟩
      rw [SilverToGold.lambda_handler,
        SilverToGold.read_parquet_folder_from_s3, if_pos hf]
    · refine ⟨"No Parquet files found in s3://" ++ optStr cfg.bucket ++
        "/" ++ (cfg.silverPfx ++ "dim_customer/"), ?_⟩
      rw [SilverToGold.lambda_handler,
        SilverToGold.read_parquet_folder_from_s3, if_neg hf]
      rfl

/-- C6, witness: the theorem applied to a run with no parquet fragments
under either prefix. -/
theorem C6_witness :
    ∃ p, SilverToGold.lambda_handler exGoldCfg [] [] =
      ([], .error (.notFound p)) :=
  C6_empty_prefix_aborts exGoldCfg [] [] (Or.inl rfl)

/-! ### C1 and C2 example inputs -/

/-- A fact row whose customer id "C1" matches the North customer. -/
def exFactMatched : FactRow :=
  { customer_id := "C1", account_number := "A1", loan_amount := 100,
    outstanding_amount := 40, emi_amount := 5, due_date := "2024-01-01",
    payment_status := "Paid", last_payment_date := "2023-12-30",
    payment_delay_days := 0, payment_on_time_flag := "Yes",
    payment_behavior := "Good" }

/-- A fact row whose customer id "C9" matches no customer row. -/
def exFactUnmatched : FactRow :=
  { customer_id := "C9", account_number := "A9", loan_amount := 50,
    outstanding_amount := 30, emi_amount := 4, due_date := "2024-05-01",
    payment_status := "Late", last_payment_date := "2024-04-10",
    payment_delay_days := 4, payment_on_time_flag := "No",
    payment_behavior := "Average" }

/-- The joined rows of the concrete Aggregator example run: one matched
row (region North) and one unmatched row (null region). -/
def exMerged : List SilverToGold.MergedRow :=
  SilverToGold.leftMerge
    ([[exFactMatched, exFactUnmatched]] : List (List FactRow)).flatten
    ([[negDelayDimCustomer]] : List (List DimCustomerRow)).flatten

/-- The region summary of the concrete Aggregator example run. -/
def exAgg : List SilverToGold.RegionSummaryRow :=
  SilverToGold.groupby_region exMerged

/-- The single North row of that summary. -/
def exNorthRow : SilverToGold.RegionSummaryRow :=
  SilverToGold.summarizeRegion exMerged "North"

/-! ### C1 -/

/-- C1, counterexample: on a run with one matched fact row (region North,
loan 100) and one unmatched fact row (loan 50), the joined data contains
a null-region row, yet the summary consists of the single North row with
`total_loan_amount = 100`: pandas `groupby` keeps its default
`dropna=True` (line 107), so the unmatched fact row is dropped and no
null/undefined region bucket exists; the 50 is counted nowhere. -/
theorem C1_counterexample_unmatched_dropped :
    (SilverToGold.lambda_handler exGoldCfg
        [[exFactMatched, exFactUnmatched]] [[negDelayDimCustomer]]).2 =
      .ok { status := "Success",
            message := "Aggregated region summary saved to Gold layer and customer data loaded into RDS",
            record_count := 1 } ∧
      exAgg.map (fun s => s.region) = ["North"] ∧
      exMerged.map SilverToGold.regionKey = [some "North", none] ∧
      exFactUnmatched.loan_amount = 50 ∧
      exNorthRow.total_loan_amount = 100 := by
  refine ⟨by decide, by decide, by decide, by decide, ?_⟩
  simp [exNorthRow, SilverToGold.summarizeRegion, SilverToGold.regionGroup,
    exMerged, SilverToGold.leftMerge, SilverToGold.mergeBlock,
    SilverToGold.regionKey, exFactMatched, exFactUnmatched,
    negDelayDimCustomer]

/-- C1, amended: when the silver customer rows carry pairwise distinct
customer ids (which `dim_customer` deduplication guarantees), each
summary row's `total_loan_amount` equals the sum of `loan_amount` over
exactly the fact rows whose matching customer has that (non-null) region;
and every summary row's region is the region of some customer row, so
fact rows with no matching customer fall into no bucket at all instead of
a null/undefined one. -/
theorem C1_region_totals (cfg : SilverToGold.Config)
    (ff : List (List FactRow)) (cf : List (List DimCustomerRow))
    (agg : List SilverToGold.RegionSummaryRow) (b k : String)
    (ret : SilverToGold.Ret)
    (h : SilverToGold.lambda_handler cfg ff cf =
      ([.s3Parquet b k agg, .rdsTable "customer" agg], .ok ret))
    (hnd : ((cf.flatten).map (fun c => c.customer_id)).Nodup) :
    ∀ s ∈ agg,
      s.total_loan_amount =
        (((ff.flatten).filter (fun f => (cf.flatten).any (fun c =>
            c.customer_id == f.customer_id && c.region == s.region))).map
          (fun f => f.loan_amount)).sum ∧
        ∃ c ∈ cf.flatten, c.region = s.region := by
  rcases gold_handler_ok_inv cfg ff cf _ ret h with ⟨_, _, hw, _⟩
  injection hw with h1 h2
  injection h1 with hb hk hagg
  subst hagg
  intro s hs
  rcases mem_groupby_region _ s hs with ⟨hsum, m, hm, hmr⟩
  constructor
  · conv_lhs => rw [hsum]
    exact sum_regionGroup_leftMerge cf.flatten hnd s.region
      (fun f => f.loan_amount) ff.flatten
  · rcases Option.map_eq_some'.mp hmr with ⟨c, hc, hcr⟩
    exact ⟨c, customer_mem_of_mem_leftMerge cf.flatten ff.flatten m c hm hc,
      hcr⟩

/-- C1, witness: the amended theorem applied to the concrete run behind
the counterexample; the North total counts exactly the matched rows. -/
theorem C1_witness :
    exNorthRow.total_loan_amount =
      ((([[exFactMatched, exFactUnmatched]] :
          List (List FactRow)).flatten.filter (fun f =>
            ([[negDelayDimCustomer]] :
              List (List DimCustomerRow)).flatten.any (fun c =>
                c.customer_id == f.customer_id &&
                  c.region == exNorthRow.region))).map
        (fun f => f.loan_amount)).sum ∧
      ∃ c ∈ ([[negDelayDimCustomer]] :
        List (List DimCustomerRow)).flatten, c.region = exNorthRow.region := by
  have hmem : exNorthRow ∈ exAgg := List.mem_map.mpr ⟨"North", by decide, rfl⟩
  exact C1_region_totals exGoldCfg [[exFactMatched, exFactUnmatched]]
    [[negDelayDimCustomer]] exAgg "bkt" "Gold/region_summary/data.parquet"
    { status := "Success",
      message := "Aggregated region summary saved to Gold layer and customer data loaded into RDS",
      record_count := exAgg.length }
    rfl (by decide) exNorthRow hmem

/-! ### C2 -/

/-- C2, counterexample: on the same run as the C1 counterexample, the
joined data has two distinct region values once the null of the unmatched
row is included (North and null), but the summary has a single row:
pandas `groupby` drops the null-region rows, so the claimed count —
distinct regions including the null bucket — overcounts the output. -/
theorem C2_counterexample_null_region_not_counted :
    (SilverToGold.lambda_handler exGoldCfg
        [[exFactMatched, exFactUnmatched]] [[negDelayDimCustomer]]).2 =
      .ok { status := "Success",
            message := "Aggregated region summary saved to Gold layer and customer data loaded into RDS",
            record_count := 1 } ∧
      (exMerged.map SilverToGold.regionKey).toFinset.card = 2 := by decide

/-- C2, amended: the number of summary rows equals the number of distinct
non-null regions in the joined data — equivalently, the distinct regions
of the fact rows that found a matching customer; joined rows with a null
region (unmatched facts) contribute nothing to the count. -/
theorem C2_region_count (cfg : SilverToGold.Config)
    (ff : List (List FactRow)) (cf : List (List DimCustomerRow))
    (agg : List SilverToGold.RegionSummaryRow) (b k : String)
    (ret : SilverToGold.Ret)
    (h : SilverToGold.lambda_handler cfg ff cf =
      ([.s3Parquet b k agg, .rdsTable "customer" agg], .ok ret)) :
    agg.length =
      ((SilverToGold.leftMerge ff.flatten cf.flatten).filterMap
        SilverToGold.regionKey).toFinset.card := by
  rcases gold_handler_ok_inv cfg ff cf _ ret h with ⟨_, _, hw, _⟩
  injection hw with h1 h2
  injection h1 with hb hk hagg
  subst hagg
  exact groupby_region_length _

/-- C2, witness: the amended theorem applied to the concrete run; the
count is 1, the one non-null region North. -/
theorem C2_witness :
    exAgg.length =
      ((SilverToGold.leftMerge
        ([[exFactMatched, exFactUnmatched]] :
          List (List FactRow)).flatten
        ([[negDelayDimCustomer]] :
          List (List DimCustomerRow)).flatten).filterMap
        SilverToGold.regionKey).toFinset.card :=
  C2_region_count exGoldCfg [[exFactMatched, exFactUnmatched]]
    [[negDelayDimCustomer]] exAgg "bkt" "Gold/region_summary/data.parquet"
    { status := "Success",
      message := "Aggregated region summary saved to Gold layer and customer data loaded into RDS",
      record_count := exAgg.length }
    rfl
